import Mathlib

/-!
# go_sign — verification of the signing service against its specification

Shallow embedding of the `xhs` package (`Signer`, `Sign`, `Close`,
`RegisterRoutes`) and of the JSON boundary it relies on
(`encoding/json.Marshal` on the Go side, `JSON.parse` on the page side).

JSON values are modelled by the inductive `Json`; numbers are modelled as
integers (the service passes JSON data through unchanged, and the fidelity
statements below are about structural identity of the tree, for which the
integer fragment is representative).  `Json.render` mirrors the compact
output of `json.Marshal` (no whitespace, `"` and `\` escaped);
`Json.parse` is a strict recursive-descent parser mirroring `JSON.parse`
on such input.
-/

/-- A JSON value: the dynamic `any` that crosses the Go/page boundary. -/
inductive Json where
  | null : Json
  | bool (b : Bool) : Json
  | num (n : Int) : Json
  | str (s : String) : Json
  | arr (elems : List Json) : Json
  | obj (members : List (String × Json)) : Json
deriving Repr, Inhabited

/-- The character a decimal digit renders to. -/
def digitChar : Nat → Char
  | 0 => '0'
  | 1 => '1'
  | 2 => '2'
  | 3 => '3'
  | 4 => '4'
  | 5 => '5'
  | 6 => '6'
  | 7 => '7'
  | 8 => '8'
  | 9 => '9'
  | _ => '0'

/-- Numeric value of a digit character. -/
def digitVal (c : Char) : Nat := c.toNat - 48

/-- Base-10 digits of `m`, least significant first; `fuel ≥ m` suffices. -/
def natDigitsRev (fuel m : Nat) : List Nat :=
  match fuel with
  | 0 => []
  | f + 1 => if m = 0 then [] else m % 10 :: natDigitsRev f (m / 10)

/-- Decimal rendering of a natural number, most significant digit first. -/
def natChars (m : Nat) : List Char :=
  if m = 0 then ['0'] else (natDigitsRev m m).reverse.map digitChar

/-- Decimal rendering of an integer (possible leading minus sign). -/
def intChars (n : Int) : List Char :=
  if n < 0 then '-' :: natChars n.natAbs else natChars n.natAbs

/-- String-body escaping done by the serializer: `"` and `\` get a
backslash prefix, every other character is emitted verbatim. -/
def escapeChars : List Char → List Char
  | [] => []
  | c :: cs =>
    if c = '"' ∨ c = '\\' then '\\' :: c :: escapeChars cs
    else c :: escapeChars cs

/-- The keyword literal of the JSON `null` scalar. -/
def nullLit : List Char := ['n', 'u', 'l', 'l']

/-- The keyword literal of the JSON `true` scalar. -/
def trueLit : List Char := ['t', 'r', 'u', 'e']

/-- The keyword literal of the JSON `false` scalar. -/
def falseLit : List Char := ['f', 'a', 'l', 's', 'e']

mutual
/-- Compact JSON rendering of a value, as `json.Marshal` emits it. -/
def renderChars : Json → List Char
  | .null => nullLit
  | .bool true => trueLit
  | .bool false => falseLit
  | .num n => intChars n
  | .str s => '"' :: (escapeChars s.data ++ ['"'])
  | .arr [] => ['[', ']']
  | .arr (x :: xs) => '[' :: (renderChars x ++ renderTailJ xs)
  | .obj [] => ['\x7b', '\x7d']
  | .obj (kv :: kvs) =>
    '\x7b' :: '"' :: (escapeChars kv.1.data ++ '"' :: ':' :: (renderChars kv.2 ++ renderTailKV kvs))

/-- Rendering of the remaining array elements, up to the closing bracket. -/
def renderTailJ : List Json → List Char
  | [] => [']']
  | y :: ys => ',' :: (renderChars y ++ renderTailJ ys)

/-- Rendering of the remaining object members, up to the closing brace. -/
def renderTailKV : List (String × Json) → List Char
  | [] => ['\x7d']
  | kv :: kvs =>
    ',' :: '"' :: (escapeChars kv.1.data ++ '"' :: ':' :: (renderChars kv.2 ++ renderTailKV kvs))
end

/-- `json.Marshal`: serialize a JSON value to its compact string form. -/
def Json.render (j : Json) : String := String.mk (renderChars j)

/-- Body of a JSON string literal: consume characters up to the closing
quote, undoing the backslash escapes; returns the body and the rest. -/
def parseStrChars : List Char → Option (List Char × List Char)
  | [] => none
  | c :: rest =>
    if c = '"' then some ([], rest)
    else if c = '\\' then
      match rest with
      | [] => none
      | d :: rest2 =>
        if d = '"' ∨ d = '\\' then
          match parseStrChars rest2 with
          | some (s, r) => some (d :: s, r)
          | none => none
        else none
    else
      match parseStrChars rest with
      | some (s, r) => some (c :: s, r)
      | none => none

/-- Longest leading run of decimal digit characters, and the rest. -/
def parseDigits : List Char → List Char × List Char
  | [] => ([], [])
  | c :: rest =>
    if c.isDigit then
      let p := parseDigits rest
      (c :: p.1, p.2)
    else ([], c :: rest)

/-- Value of a digit-character run, most significant digit first. -/
def digitsVal (ds : List Char) : Nat :=
  ds.foldl (fun a c => a * 10 + digitVal c) 0

/-- Parse a JSON number (optional minus sign, then digits). -/
def parseNum : List Char → Option (Json × List Char)
  | [] => none
  | c :: rest =>
    if c = '-' then
      let p := parseDigits rest
      if p.1 = [] then none else some (.num (-(digitsVal p.1 : Int)), p.2)
    else
      let p := parseDigits (c :: rest)
      if p.1 = [] then none else some (.num (digitsVal p.1 : Int), p.2)

/-- Consume an exact literal character sequence from the input. -/
def expectLit : List Char → List Char → Option (List Char)
  | [], cs => some cs
  | _ :: _, [] => none
  | l :: ls, c :: cs => if c = l then expectLit ls cs else none

/-- One object member (`"key":value`), with the value parsed by `pv` and
the members after it by `po`. -/
def parseMemberF (pv : List Char → Option (Json × List Char))
    (po : List Char → Option (List (String × Json) × List Char))
    (cs : List Char) : Option (List (String × Json) × List Char) :=
  match cs with
  | [] => none
  | c2 :: r =>
    if c2 = '"' then
      match parseStrChars r with
      | some (k, r2) =>
        match r2 with
        | [] => none
        | c3 :: r3 =>
          if c3 = ':' then
            match pv r3 with
            | some (v, r4) =>
              match po r4 with
              | some (kvs, r5) => some ((String.mk k, v) :: kvs, r5)
              | none => none
            | none => none
          else none
      | none => none
    else none

/-- Dispatch on the first character of a JSON value; `pv`, `pa`, `po`
parse a nested value, an array tail and an object tail respectively. -/
def parseValF (pv : List Char → Option (Json × List Char))
    (pa : List Char → Option (List Json × List Char))
    (po : List Char → Option (List (String × Json) × List Char))
    (cs : List Char) : Option (Json × List Char) :=
  match cs with
  | [] => none
  | c :: rest =>
    if c.isDigit ∨ c = '-' then parseNum (c :: rest)
    else if c = 'n' then
      match expectLit ['u', 'l', 'l'] rest with
      | some r => some (.null, r)
      | none => none
    else if c = 't' then
      match expectLit ['r', 'u', 'e'] rest with
      | some r => some (.bool true, r)
      | none => none
    else if c = 'f' then
      match expectLit ['a', 'l', 's', 'e'] rest with
      | some r => some (.bool false, r)
      | none => none
    else if c = '"' then
      match parseStrChars rest with
      | some (s, r) => some (.str (String.mk s), r)
      | none => none
    else if c = '[' then
      if rest.head? = some ']' then some (.arr [], rest.tail)
      else
        match pv rest with
        | some (v, r) =>
          match pa r with
          | some (vs, r2) => some (.arr (v :: vs), r2)
          | none => none
        | none => none
    else if c = '\x7b' then
      if rest.head? = some '\x7d' then some (.obj [], rest.tail)
      else
        match parseMemberF pv po rest with
        | some (kvs, r) => some (.obj kvs, r)
        | none => none
    else none

/-- After an array element: either the closing bracket or a comma and
further elements. -/
def parseArrTailF (pv : List Char → Option (Json × List Char))
    (pa : List Char → Option (List Json × List Char))
    (cs : List Char) : Option (List Json × List Char) :=
  match cs with
  | [] => none
  | c :: rest =>
    if c = ']' then some ([], rest)
    else if c = ',' then
      match pv rest with
      | some (v, r) =>
        match pa r with
        | some (vs, r2) => some (v :: vs, r2)
        | none => none
      | none => none
    else none

/-- After an object member: either the closing brace or a comma and
further members. -/
def parseObjTailF (pv : List Char → Option (Json × List Char))
    (po : List Char → Option (List (String × Json) × List Char))
    (cs : List Char) : Option (List (String × Json) × List Char) :=
  match cs with
  | [] => none
  | c :: rest =>
    if c = '\x7d' then some ([], rest)
    else if c = ',' then parseMemberF pv po rest
    else none

mutual
/-- Fueled recursive-descent parser for one JSON value; mirrors what
`JSON.parse` accepts on the compact serializer output. -/
def parseVal : Nat → List Char → Option (Json × List Char)
  | 0, _ => none
  | f + 1, cs => parseValF (parseVal f) (parseArrTail f) (parseObjTail f) cs

/-- Fueled parser for the elements after the first one in an array. -/
def parseArrTail : Nat → List Char → Option (List Json × List Char)
  | 0, _ => none
  | f + 1, cs => parseArrTailF (parseVal f) (parseArrTail f) cs

/-- Fueled parser for the members after the first one in an object. -/
def parseObjTail : Nat → List Char → Option (List (String × Json) × List Char)
  | 0, _ => none
  | f + 1, cs => parseObjTailF (parseVal f) (parseObjTail f) cs
end

/-- `JSON.parse`: parse a whole string as a single JSON value. -/
def Json.parse (s : String) : Option Json :=
  match parseVal (s.data.length + 1) s.data with
  | some (v, []) => some v
  | _ => none

/-- The continuation does not start with a digit, so a preceding number
literal cannot capture characters from it. -/
def numBoundary : List Char → Bool
  | [] => true
  | c :: _ => !c.isDigit

/-- Little-endian Horner value of a digit list. -/
def hornerLE : List Nat → Nat
  | [] => 0
  | d :: L => hornerLE L * 10 + d


mutual
/-- Fuel needed by `parseVal` to consume the rendering of a value. -/
def jsize : Json → Nat
  | .arr [] => 1
  | .arr (x :: xs) => 1 + jsize x + tsizeJ xs
  | .obj [] => 1
  | .obj (kv :: kvs) => 1 + jsize kv.2 + tsizeKV kvs
  | _ => 1

/-- Fuel needed by `parseArrTail` for the remaining elements. -/
def tsizeJ : List Json → Nat
  | [] => 1
  | y :: ys => 1 + jsize y + tsizeJ ys

/-- Fuel needed by `parseObjTail` for the remaining members. -/
def tsizeKV : List (String × Json) → Nat
  | [] => 1
  | kv :: kvs => 1 + jsize kv.2 + tsizeKV kvs
end

/-!
## The signing engine (`internal/xhs/sign.go`)

The Playwright bridge is opaque to the Go code: every bridge call either
succeeds or yields an error value.  `BridgeErr` stands for such an error;
`PageBehavior` packages what the shared page would answer to the two
`page.Evaluate` calls `Sign` makes (the `window._webmsxyw` probe and the
signing expression).  `Sign` additionally returns the list of page
interactions it performed, so that "no page interaction" is expressible.
-/

/-- An error value coming back over the browser-automation bridge. -/
structure BridgeErr where
  msg : String
deriving Repr, DecidableEq

/-- Errors produced in the launch sequence of `NewSigner`, one wrap per
fallible stage (in source order). -/
inductive InitErr where
  | runFailed (e : BridgeErr)
  | launchFailed (e : BridgeErr)
  | newContextFailed (e : BridgeErr)
  | statFailed (e : BridgeErr)
  | addInitScriptFailed (e : BridgeErr)
  | newPageFailed (e : BridgeErr)
  | gotoFailed (e : BridgeErr)
deriving Repr, DecidableEq

/-- The `Signer` struct: handle presence (a `false` field is a nil handle),
the stealth-script path, and the sticky init error.  The `initOnce` field
of the Go struct is modelled at the call site of `NewSigner`, where a
fresh one is created per call. -/
structure Signer where
  pw : Bool
  browser : Bool
  context : Bool
  page : Bool
  stealthJS : String
  initErr : Option InitErr
deriving Repr, DecidableEq

/-- Environment for one launch sequence: the outcome each stage would
have (`none` = success), covering `playwright.Run`, `Chromium.Launch`,
`NewContext`, `os.Stat` on the stealth script, `AddInitScript`, `NewPage`
and `Goto`. -/
structure InitEnv where
  runOk : Option BridgeErr
  launchOk : Option BridgeErr
  newContextOk : Option BridgeErr
  statOk : Option BridgeErr
  addInitScriptOk : Option BridgeErr
  newPageOk : Option BridgeErr
  gotoOk : Option BridgeErr
deriving Repr, DecidableEq

/-- The body of the `initOnce.Do` closure in `NewSigner`: each stage
short-circuits to a sticky `initErr`; handles acquired before the failing
stage stay set.  The final best-effort cookie logging has no effect on the
state and is omitted. -/
def initBody (stealthJSPath : String) (env : InitEnv) : Signer :=
  let base : Signer :=
    { pw := false, browser := false, context := false, page := false,
      stealthJS := stealthJSPath, initErr := none }
  match env.runOk with
  | some e => { base with initErr := some (.runFailed e) }
  | none =>
    let s1 := { base with pw := true }
    match env.launchOk with
    | some e => { s1 with initErr := some (.launchFailed e) }
    | none =>
      let s2 := { s1 with browser := true }
      match env.newContextOk with
      | some e => { s2 with initErr := some (.newContextFailed e) }
      | none =>
        let s3 := { s2 with context := true }
        match env.statOk with
        | some e => { s3 with initErr := some (.statFailed e) }
        | none =>
          match env.addInitScriptOk with
          | some e => { s3 with initErr := some (.addInitScriptFailed e) }
          | none =>
            match env.newPageOk with
            | some e => { s3 with initErr := some (.newPageFailed e) }
            | none =>
              let s4 := { s3 with page := true }
              match env.gotoOk with
              | some e => { s4 with initErr := some (.gotoFailed e) }
              | none => s4

/-- `NewSigner`: build a fresh `Signer` (with a fresh `sync.Once`), run the
launch sequence under that once-guard, and return the signer or the sticky
error.  Because `var s Signer` makes the once-guard fresh on every call,
the guard never suppresses the body; the body runs unconditionally. -/
def NewSigner (stealthJSPath : String) (env : InitEnv) : Except InitErr Signer :=
  let s := initBody stealthJSPath env
  match s.initErr with
  | some e => Except.error e
  | none => Except.ok s

/-- `SignParams` (`uri`, `data`, `a1`, `web_session`). -/
structure SignParams where
  uri : String
  data : Json
  a1 : String
  webSession : String

/-- `SignResult` (`x-s`, `x-t`). -/
structure SignResult where
  xs : String
  xt : String
deriving Repr, DecidableEq

/-- Errors returned by `Sign`, one per return branch in source order. -/
inductive SignErr where
  | pageNotInit
  | probeFailed (e : BridgeErr)
  | notInjected
  | marshalFailed (e : BridgeErr)
  | evalFailed (e : BridgeErr)
  | shapeError
deriving Repr, DecidableEq

/-- What the shared page answers: the probe evaluation result, and the
in-page `window._webmsxyw` function itself (opaque; may throw). -/
structure PageBehavior where
  probeResult : Except BridgeErr Json
  webmsxyw : String → Json → Except BridgeErr Json

/-- A page interaction performed by `Sign`: the probe `Evaluate`, or the
signing-expression `Evaluate` with its `[url, dataStr]` argument. -/
inductive PageOp where
  | probe
  | evalSign (uri : String) (dataStr : String)
deriving Repr, DecidableEq

/-- The in-page signing expression
`([url, dataStr]) => window._webmsxyw(url, JSON.parse(dataStr))`: parse
the payload string inside the page, then call the in-page function.  A
parse failure is a thrown exception, surfacing as an `Evaluate` error. -/
def evalSignExpr (pb : PageBehavior) (uri : String) (dataStr : String) :
    Except BridgeErr Json :=
  match Json.parse dataStr with
  | none => Except.error ⟨"SyntaxError"⟩
  | some v => pb.webmsxyw uri v

/-- First-match association-list lookup, as for a Go `map[string]any`
(keys are unique in a Go map, so first match is the match). -/
def lookupKV : List (String × Json) → String → Option Json
  | [], _ => none
  | kv :: rest, k => if kv.1 = k then some kv.2 else lookupKV rest k

/-- `m[key].(string)` with the ignored-ok pattern: the zero value `""`
when the key is absent or the value is not a string. -/
def getStrField (m : List (String × Json)) (key : String) : String :=
  match lookupKV m key with
  | some (Json.str v) => v
  | _ => ""

/-- `Signer.Sign`: nil-page guard, probe, marshal, in-page evaluation,
result extraction.  Returns the outcome plus the page interactions
performed, in order.  (Marshalling a `Json` value never fails, so the
`marshalFailed` branch of the source is unreachable in this model.) -/
def Signer.Sign (s : Signer) (params : SignParams) (pb : PageBehavior) :
    Except SignErr SignResult × List PageOp :=
  if s.page = false then (Except.error .pageNotInit, [])
  else
    match pb.probeResult with
    | Except.error e => (Except.error (.probeFailed e), [.probe])
    | Except.ok ex =>
      match ex with
      | Json.bool true =>
        let dataJSON := Json.render params.data
        match evalSignExpr pb params.uri dataJSON with
        | Except.error e =>
          (Except.error (.evalFailed e), [.probe, .evalSign params.uri dataJSON])
        | Except.ok res =>
          match res with
          | Json.obj m =>
            (Except.ok ⟨getStrField m "X-s", getStrField m "X-t"⟩,
             [.probe, .evalSign params.uri dataJSON])
          | _ => (Except.error .shapeError, [.probe, .evalSign params.uri dataJSON])
      | _ => (Except.error .notInjected, [.probe])

/-- A resource-release stage of `Close`, in source order. -/
inductive CloseStage where
  | page
  | context
  | browser
  | runtime
deriving Repr, DecidableEq

/-- Outcomes the bridge would give to each release call (`none` =
success). -/
structure CloseBehavior where
  pageClose : Option BridgeErr
  contextClose : Option BridgeErr
  browserClose : Option BridgeErr
  pwStop : Option BridgeErr
deriving Repr, DecidableEq

/-- Errors returned by `Close`, wrapped per stage as in the source. -/
inductive CloseErr where
  | closePageFailed (e : BridgeErr)
  | closeContextFailed (e : BridgeErr)
  | closeBrowserFailed (e : BridgeErr)
  | stopPlaywrightFailed (e : BridgeErr)
deriving Repr, DecidableEq

/-- One release step of `Close`: skip a nil handle entirely; otherwise
attempt the release, record the attempt, and set `firstErr` only if it is
still unset. -/
def closeStep (acc : Option CloseErr × List CloseStage) (present : Bool)
    (stage : CloseStage) (res : Option BridgeErr) (wrap : BridgeErr → CloseErr) :
    Option CloseErr × List CloseStage :=
  if present then
    match res with
    | some e =>
      (match acc.1 with
       | none => some (wrap e)
       | some f => some f, acc.2 ++ [stage])
    | none => (acc.1, acc.2 ++ [stage])
  else acc

/-- `Signer.Close`: best-effort release of page, context, browser and
runtime, in that order; returns the first error encountered plus the list
of release calls actually attempted. -/
def Signer.Close (s : Signer) (cb : CloseBehavior) :
    Option CloseErr × List CloseStage :=
  let a1 := closeStep (none, []) s.page .page cb.pageClose CloseErr.closePageFailed
  let a2 := closeStep a1 s.context .context cb.contextClose CloseErr.closeContextFailed
  let a3 := closeStep a2 s.browser .browser cb.browserClose CloseErr.closeBrowserFailed
  closeStep a3 s.pw .runtime cb.pwStop CloseErr.stopPlaywrightFailed

/-!
## The request gateway (`internal/xhs/http.go`)
-/

/-- Go error message of a `Sign` failure (`err.Error()`), one message per
return branch of the source. -/
def SignErr.message : SignErr → String
  | .pageNotInit => "页面未初始化"
  | .probeFailed e => "检查 window._webmsxyw 失败: " ++ e.msg
  | .notInjected => "window._webmsxyw 未定义或未注入签名 JS"
  | .marshalFailed e => "data 参数序列化失败: " ++ e.msg
  | .evalFailed e => "执行签名 JS 失败: " ++ e.msg
  | .shapeError => "签名结果类型断言失败"

/-- An HTTP response of the `/sign` handler: status code and JSON body. -/
structure HttpResponse where
  status : Nat
  body : Json
deriving Repr

/-- The `POST /sign` handler registered by `RegisterRoutes`:
`ShouldBindJSON` failure maps to 400 with an error string; a `Sign` error
maps to 500 with an error string; success maps to 200 with the
`SignResult` serialized under its `x-s`/`x-t` JSON tags. -/
def signHandler (bindResult : Except String SignParams) (s : Signer)
    (pb : PageBehavior) : HttpResponse :=
  match bindResult with
  | Except.error emsg =>
    ⟨400, Json.obj [("error", Json.str ("参数解析失败: " ++ emsg))]⟩
  | Except.ok req =>
    match (s.Sign req pb).1 with
    | Except.error e =>
      ⟨500, Json.obj [("error", Json.str ("签名失败: " ++ e.message))]⟩
    | Except.ok res =>
      ⟨200, Json.obj [("x-s", Json.str res.xs), ("x-t", Json.str res.xt)]⟩

/-!
## Process-level model of repeated `NewSigner` calls

`NewSigner` declares `var s Signer`, so the `sync.Once` guarding the
launch sequence is a fresh, unfired one on every call; the world counter
records how many launch sequences (`playwright.Run` onwards) have been
started in the process.
-/

/-- The `sync.Once` of one `Signer` value. -/
structure Once where
  done : Bool
deriving Repr, DecidableEq

/-- Process-wide state: how many launch sequences have executed. -/
structure World where
  launches : Nat
deriving Repr, DecidableEq

/-- One `NewSigner` call observed at process level: a fresh `Once` is
allocated (`var s Signer`), and `initOnce.Do` runs its body iff that fresh
guard has not fired — which it never has.  Running the body executes one
launch sequence. -/
def NewSignerW (stealthJSPath : String) (env : InitEnv) (w : World) :
    Except InitErr Signer × World :=
  let once : Once := { done := false }
  if once.done then
    (NewSigner stealthJSPath env, w)
  else
    (NewSigner stealthJSPath env, { w with launches := w.launches + 1 })

/-!
## Interleaving model for concurrent `Sign` calls

`Sign` contains no lock and `Signer` has no mutex field, so when two
goroutines call `Sign` on the same `Signer`, the Go memory model allows
their page interactions (the traces returned by the embedded `Sign`) to
reach the shared page in any interleaved order.  A schedule is any
interleaving of the two tagged traces; the engine would provide mutual
exclusion only if every admissible schedule kept one call's trace
contiguous. -/

/-- `zs` is an interleaving of `xs` and `ys`. -/
inductive Interleaving : List (Nat × PageOp) → List (Nat × PageOp) →
    List (Nat × PageOp) → Prop
  | nil : Interleaving [] [] []
  | left {x xs ys zs} : Interleaving xs ys zs → Interleaving (x :: xs) ys (x :: zs)
  | right {y xs ys zs} : Interleaving xs ys zs → Interleaving xs (y :: ys) (y :: zs)

/-- Tag each page interaction with the id of the call performing it. -/
def tagOps (id : Nat) (ops : List PageOp) : List (Nat × PageOp) :=
  ops.map (fun op => (id, op))

/-- The schedule keeps the two calls serialized: one call's page
interactions all happen before the other's. -/
def serializedTwo (t1 t2 sched : List (Nat × PageOp)) : Prop :=
  sched = t1 ++ t2 ∨ sched = t2 ++ t1


/-!
## Definitions supporting the claim statements
-/

/-- The value handed to `window._webmsxyw` during `Sign`: the payload is
serialized with `json.Marshal` on the Go side and recovered with
`JSON.parse` inside the page. -/
def handedPayload (params : SignParams) : Option Json :=
  Json.parse (Json.render params.data)

/-- Whether a dynamic value is a key/value object (`map[string]any`). -/
def isObjB : Json → Bool
  | Json.obj _ => true
  | _ => false

/-- Written from the spec (result-shape requirement): the returned value
is a key/value mapping containing the two case-sensitive string fields
`X-s` and `X-t`. -/
def specWellShaped : Json → Bool
  | Json.obj m =>
    (match lookupKV m "X-s" with
     | some (Json.str _) => true
     | _ => false) &&
    (match lookupKV m "X-t" with
     | some (Json.str _) => true
     | _ => false)
  | _ => false

/-- Written from the spec (release order): the release calls `Close`
should attempt — exactly the non-nil handles, in page, context, browser,
runtime order. -/
def specCloseOrder (s : Signer) : List CloseStage :=
  (if s.page then [CloseStage.page] else []) ++
  (if s.context then [CloseStage.context] else []) ++
  (if s.browser then [CloseStage.browser] else []) ++
  (if s.pw then [CloseStage.runtime] else [])

/-- Written from the spec (first error): the first failure among the four
release steps of a fully live session, `none` when all succeed. -/
def specFirstCloseErr (cb : CloseBehavior) : Option CloseErr :=
  match cb.pageClose with
  | some e => some (.closePageFailed e)
  | none =>
    match cb.contextClose with
    | some e => some (.closeContextFailed e)
    | none =>
      match cb.browserClose with
      | some e => some (.closeBrowserFailed e)
      | none =>
        match cb.pwStop with
        | some e => some (.stopPlaywrightFailed e)
        | none => none

/-- A fully initialized session (all four handles live). -/
def fullSigner : Signer :=
  { pw := true, browser := true, context := true, page := true,
    stealthJS := "stealth.min.js", initErr := none }

/-- The zero value of the `Signer` struct: every handle nil. -/
def zeroSigner : Signer :=
  { pw := false, browser := false, context := false, page := false,
    stealthJS := "", initErr := none }

/-- A page whose in-page function echoes the documented mock result. -/
def abcPage : PageBehavior :=
  { probeResult := Except.ok (Json.bool true),
    webmsxyw := fun _ _ =>
      Except.ok (Json.obj [("X-s", Json.str "abc"), ("X-t", Json.str "123")]) }

/-- A page whose in-page function returns a non-object value. -/
def nonObjPage : PageBehavior :=
  { probeResult := Except.ok (Json.bool true),
    webmsxyw := fun _ _ => Except.ok (Json.str "nope") }

/-- A page whose in-page function returns an object missing both result
fields. -/
def emptyObjPage : PageBehavior :=
  { probeResult := Except.ok (Json.bool true),
    webmsxyw := fun _ _ => Except.ok (Json.obj []) }

/-- A page whose probe evaluation itself fails. -/
def failProbePage : PageBehavior :=
  { probeResult := Except.error ⟨"page crashed"⟩,
    webmsxyw := fun _ _ => Except.error ⟨"page crashed"⟩ }

/-- A sample request (the session-identity tokens are empty). -/
def sampleParams : SignParams :=
  { uri := "/api/foo", data := Json.null, a1 := "", webSession := "" }

/-- The same `uri` and `data` as `sampleParams` with different
session-identity tokens. -/
def sampleParamsTok : SignParams :=
  { uri := "/api/foo", data := Json.null, a1 := "tokA", webSession := "tokW" }

/-- An environment in which every launch stage succeeds. -/
def okEnv : InitEnv :=
  { runOk := none, launchOk := none, newContextOk := none, statOk := none,
    addInitScriptOk := none, newPageOk := none, gotoOk := none }

/-- An environment in which the very first stage (`playwright.Run`)
fails. -/
def failEnv : InitEnv :=
  { runOk := some ⟨"boom"⟩, launchOk := none, newContextOk := none,
    statOk := none, addInitScriptOk := none, newPageOk := none,
    gotoOk := none }


theorem natDigitsRev_lt (fuel : Nat) : ∀ m d, d ∈ natDigitsRev fuel m → d < 10 := by
  induction fuel with
  | zero => intro m d h; simp [natDigitsRev] at h
  | succ f ih =>
    intro m d h
    by_cases hm : m = 0
    · simp [natDigitsRev, hm] at h
    · simp only [natDigitsRev, if_neg hm, List.mem_cons] at h
      rcases h with h | h
      · omega
      · exact ih _ _ h

theorem hornerLE_natDigitsRev (fuel : Nat) :
    ∀ m, m ≤ fuel → hornerLE (natDigitsRev fuel m) = m := by
  induction fuel with
  | zero =>
    intro m hm
    have hz : m = 0 := by omega
    simp [natDigitsRev, hornerLE, hz]
  | succ f ih =>
    intro m hm
    by_cases hz : m = 0
    · simp [natDigitsRev, hornerLE, hz]
    · have hdiv : m / 10 ≤ f := by omega
      simp only [natDigitsRev, if_neg hz, hornerLE, ih _ hdiv]
      omega

theorem digitVal_digitChar {d : Nat} (hd : d < 10) : digitVal (digitChar d) = d := by
  interval_cases d <;> decide

theorem isDigit_digitChar {d : Nat} (hd : d < 10) : (digitChar d).isDigit = true := by
  interval_cases d <;> decide

theorem digitsVal_rev_map (L : List Nat) (hL : ∀ d ∈ L, d < 10) :
    digitsVal (L.reverse.map digitChar) = hornerLE L := by
  unfold digitsVal
  rw [List.map_reverse, List.foldl_reverse]
  induction L with
  | nil => simp [hornerLE]
  | cons d L ih =>
    simp only [List.map_cons, List.foldr_cons, hornerLE]
    rw [ih (fun x hx => hL x (List.mem_cons_of_mem _ hx))]
    rw [digitVal_digitChar (hL d (List.mem_cons_self _ _))]

theorem digitsVal_natChars (m : Nat) : digitsVal (natChars m) = m := by
  by_cases hz : m = 0
  · simp [natChars, hz]; decide
  · unfold natChars
    rw [if_neg hz, digitsVal_rev_map _ (natDigitsRev_lt m m),
      hornerLE_natDigitsRev m m le_rfl]

theorem natChars_all_digit (m : Nat) : ∀ c ∈ natChars m, c.isDigit = true := by
  intro c hc
  unfold natChars at hc
  by_cases hz : m = 0
  · rw [if_pos hz] at hc; simp at hc; subst hc; decide
  · rw [if_neg hz] at hc
    simp only [List.mem_map, List.mem_reverse] at hc
    obtain ⟨d, hd, rfl⟩ := hc
    exact isDigit_digitChar (natDigitsRev_lt m m d hd)

theorem natChars_ne_nil (m : Nat) : natChars m ≠ [] := by
  unfold natChars
  by_cases hz : m = 0
  · simp [hz]
  · rw [if_neg hz]
    intro h
    have : natDigitsRev m m ≠ [] := by
      cases m with
      | zero => exact absurd rfl hz
      | succ k => simp [natDigitsRev, hz]
    simp only [List.map_eq_nil_iff, List.reverse_eq_nil_iff] at h
    exact this h

theorem parseDigits_append (ds rest : List Char)
    (hds : ∀ c ∈ ds, c.isDigit = true) (hrest : numBoundary rest = true) :
    parseDigits (ds ++ rest) = (ds, rest) := by
  induction ds with
  | nil =>
    cases rest with
    | nil => simp [parseDigits]
    | cons c r =>
      simp only [numBoundary, Bool.not_eq_true'] at hrest
      simp [parseDigits, hrest]
  | cons c ds ih =>
    have hc : c.isDigit = true := hds c (List.mem_cons_self _ _)
    have ih' := ih (fun x hx => hds x (List.mem_cons_of_mem _ hx))
    simp [parseDigits, hc, ih']

theorem isDigit_ne_minus {c : Char} (hc : c.isDigit = true) : c ≠ '-' := by
  intro h; subst h; simp [Char.isDigit] at hc

theorem parseNum_render (n : Int) (rest : List Char) (hrest : numBoundary rest = true) :
    parseNum (intChars n ++ rest) = some (.num n, rest) := by
  by_cases hn : n < 0
  · have habs : -(n.natAbs : Int) = n := by omega
    simp only [intChars, if_pos hn, List.cons_append, parseNum, if_pos rfl]
    rw [parseDigits_append _ _ (natChars_all_digit _) hrest]
    simp only [digitsVal_natChars, if_neg
      (show ¬((natChars n.natAbs, rest).1 = []) from natChars_ne_nil n.natAbs)]
    rw [habs]
    simp
  · obtain ⟨c, cs, hcons⟩ : ∃ c cs, natChars n.natAbs = c :: cs := by
      cases h : natChars n.natAbs with
      | nil => exact absurd h (natChars_ne_nil _)
      | cons c cs => exact ⟨c, cs, rfl⟩
    have hcd : c.isDigit = true := natChars_all_digit _ c (by rw [hcons]; exact List.mem_cons_self _ _)
    have habs : ((n.natAbs : Nat) : Int) = n := by omega
    simp only [intChars, if_neg hn, hcons, List.cons_append, parseNum,
      if_neg (isDigit_ne_minus hcd)]
    rw [← List.cons_append, ← hcons, parseDigits_append _ _ (natChars_all_digit _) hrest]
    simp only [digitsVal_natChars, if_neg
      (show ¬((natChars n.natAbs, rest).1 = []) from natChars_ne_nil n.natAbs)]
    rw [habs]

theorem parseStrChars_escape (l rest : List Char) :
    parseStrChars (escapeChars l ++ '"' :: rest) = some (l, rest) := by
  induction l with
  | nil =>
    simp only [escapeChars, List.nil_append]
    rw [parseStrChars.eq_def]
    simp
  | cons c cs ih =>
    by_cases hc : c = '"' ∨ c = '\\'
    · rcases hc with hc | hc
      · subst hc
        simp only [escapeChars, if_pos (Or.inl rfl), List.cons_append]
        rw [parseStrChars.eq_def]
        simp [ih]
      · subst hc
        simp only [escapeChars, if_pos (Or.inr rfl), List.cons_append]
        rw [parseStrChars.eq_def]
        simp [ih]
    · push_neg at hc
      have hcor : ¬(c = '"' ∨ c = '\\') := by tauto
      simp only [escapeChars, if_neg hcor, List.cons_append]
      rw [parseStrChars.eq_def]
      simp [hc.1, hc.2, ih]


theorem numBoundary_renderTailJ (xs : List Json) (r : List Char) :
    numBoundary (renderTailJ xs ++ r) = true := by
  cases xs <;> simp [renderTailJ, numBoundary]

theorem numBoundary_renderTailKV (kvs : List (String × Json)) (r : List Char) :
    numBoundary (renderTailKV kvs ++ r) = true := by
  cases kvs <;> simp [renderTailKV, numBoundary]

theorem renderChars_cons (j : Json) :
    ∃ c cs, renderChars j = c :: cs ∧ c ≠ ']' := by
  cases j with
  | null => exact ⟨'n', _, rfl, by decide⟩
  | bool b =>
    cases b with
    | false => exact ⟨'f', _, rfl, by decide⟩
    | true => exact ⟨'t', _, rfl, by decide⟩
  | num n =>
    by_cases hn : n < 0
    · exact ⟨'-', natChars n.natAbs, by simp [renderChars, intChars, hn], by decide⟩
    · obtain ⟨c, cs, hcons⟩ : ∃ c cs, natChars n.natAbs = c :: cs := by
        cases h : natChars n.natAbs with
        | nil => exact absurd h (natChars_ne_nil _)
        | cons c cs => exact ⟨c, cs, rfl⟩
      have hcd : c.isDigit = true :=
        natChars_all_digit _ c (by rw [hcons]; exact List.mem_cons_self _ _)
      refine ⟨c, cs, by simp [renderChars, intChars, hn, hcons], ?_⟩
      intro h
      subst h
      simp [Char.isDigit] at hcd
  | str s => exact ⟨'"', _, rfl, by decide⟩
  | arr xs =>
    cases xs with
    | nil => exact ⟨'[', _, rfl, by decide⟩
    | cons x xs => exact ⟨'[', _, rfl, by decide⟩
  | obj kvs =>
    cases kvs with
    | nil => exact ⟨'\x7b', _, rfl, by decide⟩
    | cons kv kvs => exact ⟨'\x7b', _, rfl, by decide⟩

theorem one_le_jsize (j : Json) : 1 ≤ jsize j := by
  cases j with
  | null => simp [jsize]
  | bool b => simp [jsize]
  | num n => simp [jsize]
  | str s => simp [jsize]
  | arr xs => cases xs <;> (simp [jsize]; try omega)
  | obj kvs => cases kvs <;> (simp [jsize]; try omega)

theorem one_le_tsizeJ (xs : List Json) : 1 ≤ tsizeJ xs := by
  cases xs <;> (simp [tsizeJ]; try omega)

theorem one_le_tsizeKV (kvs : List (String × Json)) : 1 ≤ tsizeKV kvs := by
  cases kvs <;> (simp [tsizeKV]; try omega)

theorem intChars_head (n : Int) :
    ∃ c cs, intChars n = c :: cs ∧ (c.isDigit = true ∨ c = '-') := by
  by_cases hn : n < 0
  · exact ⟨'-', natChars n.natAbs, by simp [intChars, hn], Or.inr rfl⟩
  · obtain ⟨c, cs, hcons⟩ : ∃ c cs, natChars n.natAbs = c :: cs := by
      cases h : natChars n.natAbs with
      | nil => exact absurd h (natChars_ne_nil _)
      | cons c cs => exact ⟨c, cs, rfl⟩
    refine ⟨c, cs, by simp [intChars, hn, hcons], Or.inl ?_⟩
    exact natChars_all_digit _ c (by rw [hcons]; exact List.mem_cons_self _ _)

theorem parseMemberF_render (pv : List Char → Option (Json × List Char))
    (po : List Char → Option (List (String × Json) × List Char))
    (k : String) (v : Json) (kvs : List (String × Json)) (rest : List Char)
    (hpv : pv (renderChars v ++ (renderTailKV kvs ++ rest)) =
      some (v, renderTailKV kvs ++ rest))
    (hpo : po (renderTailKV kvs ++ rest) = some (kvs, rest)) :
    parseMemberF pv po
      ('"' :: (escapeChars k.data ++ ('"' :: ':' :: (renderChars v ++ (renderTailKV kvs ++ rest)))))
      = some ((k, v) :: kvs, rest) := by
  rw [parseMemberF.eq_def]
  simp only [if_pos rfl]
  rw [parseStrChars_escape k.data (':' :: (renderChars v ++ (renderTailKV kvs ++ rest)))]
  simp only [if_pos rfl, hpv, hpo]
  simp

theorem parse_render_aux (fuel : Nat) :
    (∀ j rest, jsize j ≤ fuel → numBoundary rest = true →
      parseVal fuel (renderChars j ++ rest) = some (j, rest)) ∧
    (∀ xs rest, tsizeJ xs ≤ fuel → numBoundary rest = true →
      parseArrTail fuel (renderTailJ xs ++ rest) = some (xs, rest)) ∧
    (∀ kvs rest, tsizeKV kvs ≤ fuel → numBoundary rest = true →
      parseObjTail fuel (renderTailKV kvs ++ rest) = some (kvs, rest)) := by
  induction fuel with
  | zero =>
    refine ⟨fun j rest hsz _ => absurd hsz (by have := one_le_jsize j; omega),
            fun xs rest hsz _ => absurd hsz (by have := one_le_tsizeJ xs; omega),
            fun kvs rest hsz _ => absurd hsz (by have := one_le_tsizeKV kvs; omega)⟩
  | succ f ih =>
    obtain ⟨ihV, ihA, ihO⟩ := ih
    refine ⟨?_, ?_, ?_⟩
    · intro j rest hsz hnb
      cases j with
      | null =>
        simp +decide [renderChars, nullLit, parseVal, parseValF, expectLit]
      | bool b =>
        cases b <;>
          simp +decide [renderChars, trueLit, falseLit, parseVal, parseValF, expectLit]
      | num n =>
        obtain ⟨c, cs, hcons, hc⟩ := intChars_head n
        have hrc : renderChars (.num n) = intChars n := by simp [renderChars]
        rw [hrc, hcons, List.cons_append]
        simp only [parseVal, parseValF]
        rw [if_pos hc, ← List.cons_append, ← hcons]
        exact parseNum_render n rest hnb
      | str s =>
        have h := parseStrChars_escape s.data rest
        simp only [renderChars, List.cons_append, List.append_assoc, List.singleton_append]
        simp +decide [parseVal, parseValF, h]
      | arr xs =>
        cases xs with
        | nil => simp +decide [renderChars, parseVal, parseValF]
        | cons x xs =>
          obtain ⟨c, cs, hx, hcne⟩ := renderChars_cons x
          have h1 : jsize x ≤ f ∧ tsizeJ xs ≤ f := by
            simp [jsize] at hsz; omega
          have hv := ihV x (renderTailJ xs ++ rest) h1.1 (numBoundary_renderTailJ xs rest)
          have ha := ihA xs rest h1.2 hnb
          simp only [hx, List.cons_append] at hv
          simp only [renderChars, List.cons_append, List.append_assoc, hx]
          simp +decide [parseVal, parseValF, hv, ha, hcne, List.head?_cons]
      | obj kvs =>
        cases kvs with
        | nil => simp +decide [renderChars, parseVal, parseValF]
        | cons kv kvs =>
          have h1 : jsize kv.2 ≤ f ∧ tsizeKV kvs ≤ f := by
            simp [jsize] at hsz; omega
          have hv := ihV kv.2 (renderTailKV kvs ++ rest) h1.1 (numBoundary_renderTailKV kvs rest)
          have ho := ihO kvs rest h1.2 hnb
          have hm := parseMemberF_render (parseVal f) (parseObjTail f) kv.1 kv.2 kvs rest hv ho
          simp only [renderChars, List.cons_append, List.append_assoc]
          simp +decide [parseVal, parseValF, hm]
    · intro xs rest hsz hnb
      cases xs with
      | nil => simp +decide [renderTailJ, parseArrTail, parseArrTailF]
      | cons y ys =>
        have h1 : jsize y ≤ f ∧ tsizeJ ys ≤ f := by
          simp [tsizeJ] at hsz; omega
        have hv := ihV y (renderTailJ ys ++ rest) h1.1 (numBoundary_renderTailJ ys rest)
        have ha := ihA ys rest h1.2 hnb
        simp only [renderTailJ, List.cons_append, List.append_assoc]
        simp +decide [parseArrTail, parseArrTailF, hv, ha]
    · intro kvs rest hsz hnb
      cases kvs with
      | nil => simp +decide [renderTailKV, parseObjTail, parseObjTailF]
      | cons kv kvs =>
        have h1 : jsize kv.2 ≤ f ∧ tsizeKV kvs ≤ f := by
          simp [tsizeKV] at hsz; omega
        have hv := ihV kv.2 (renderTailKV kvs ++ rest) h1.1 (numBoundary_renderTailKV kvs rest)
        have ho := ihO kvs rest h1.2 hnb
        have hm := parseMemberF_render (parseVal f) (parseObjTail f) kv.1 kv.2 kvs rest hv ho
        simp only [renderTailKV, List.cons_append, List.append_assoc]
        simp +decide [parseObjTail, parseObjTailF, hm]

theorem jsize_le_aux (n : Nat) :
    (∀ j, jsize j ≤ n → jsize j ≤ (renderChars j).length) ∧
    (∀ xs, tsizeJ xs ≤ n → tsizeJ xs ≤ (renderTailJ xs).length) ∧
    (∀ kvs, tsizeKV kvs ≤ n → tsizeKV kvs ≤ (renderTailKV kvs).length) := by
  induction n with
  | zero =>
    exact ⟨fun j h => absurd h (by have := one_le_jsize j; omega),
           fun xs h => absurd h (by have := one_le_tsizeJ xs; omega),
           fun kvs h => absurd h (by have := one_le_tsizeKV kvs; omega)⟩
  | succ n ih =>
    obtain ⟨ihV, ihA, ihO⟩ := ih
    refine ⟨?_, ?_, ?_⟩
    · intro j hsz
      cases j with
      | null => simp [renderChars, nullLit, jsize]
      | bool b => cases b <;> simp [renderChars, trueLit, falseLit, jsize]
      | num m =>
        obtain ⟨c, cs, hcons, -⟩ := intChars_head m
        simp [renderChars, jsize, hcons]
      | str s => simp [renderChars, jsize]
      | arr xs =>
        cases xs with
        | nil => simp [renderChars, jsize]
        | cons x xs =>
          have h1 : jsize x ≤ n ∧ tsizeJ xs ≤ n := by
            simp [jsize] at hsz; omega
          have := ihV x h1.1
          have := ihA xs h1.2
          simp [renderChars, jsize]
          omega
      | obj kvs =>
        cases kvs with
        | nil => simp [renderChars, jsize]
        | cons kv kvs =>
          have h1 : jsize kv.2 ≤ n ∧ tsizeKV kvs ≤ n := by
            simp [jsize] at hsz; omega
          have := ihV kv.2 h1.1
          have := ihO kvs h1.2
          simp [renderChars, jsize]
          omega
    · intro xs hsz
      cases xs with
      | nil => simp [renderTailJ, tsizeJ]
      | cons y ys =>
        have h1 : jsize y ≤ n ∧ tsizeJ ys ≤ n := by
          simp [tsizeJ] at hsz; omega
        have := ihV y h1.1
        have := ihA ys h1.2
        simp [renderTailJ, tsizeJ]
        omega
    · intro kvs hsz
      cases kvs with
      | nil => simp [renderTailKV, tsizeKV]
      | cons kv kvs =>
        have h1 : jsize kv.2 ≤ n ∧ tsizeKV kvs ≤ n := by
          simp [tsizeKV] at hsz; omega
        have := ihV kv.2 h1.1
        have := ihO kvs h1.2
        simp [renderTailKV, tsizeKV]
        omega

/-- Serialize-then-parse identity for the JSON boundary: the value
recovered by `JSON.parse` from the `json.Marshal` output is structurally
equal to the original value. -/
theorem Json.parse_render (j : Json) : Json.parse (Json.render j) = some j := by
  have hlen : jsize j ≤ (renderChars j).length := (jsize_le_aux (jsize j)).1 j le_rfl
  have h := (parse_render_aux ((renderChars j).length + 1)).1 j [] (by omega) rfl
  rw [List.append_nil] at h
  unfold Json.parse Json.render
  simp [h]

/-!
## Claim theorems
-/

/-- C5: round-trip payload fidelity — for every JSON-serializable payload
`P` of a Sign request, the value handed to the in-page signing function
(serialize on the caller side, `JSON.parse` inside the page) is
structurally equal to `P`; hence the in-page evaluation behaves exactly
as `window._webmsxyw` applied to the original payload. -/
theorem sign_payload_fidelity (params : SignParams) (pb : PageBehavior) :
    handedPayload params = some params.data ∧
    evalSignExpr pb params.uri (Json.render params.data) =
      pb.webmsxyw params.uri params.data := by
  constructor
  · exact Json.parse_render params.data
  · unfold evalSignExpr
    rw [Json.parse_render]

/-- C4: sticky failure — when initialization fails at any stage,
`NewSigner` returns the sticky error and no signer, so no caller holds a
session to sign with; and `Sign` against a session without a live page
handle fails immediately with no page interaction (empty trace). -/
theorem sign_sticky_failure (path : String) (env : InitEnv) (e : InitErr)
    (s : Signer) (params : SignParams) (pb : PageBehavior)
    (hfail : (initBody path env).initErr = some e) (hpage : s.page = false) :
    NewSigner path env = Except.error e ∧
    s.Sign params pb = (Except.error SignErr.pageNotInit, []) := by
  constructor
  · simp [NewSigner, hfail]
  · simp [Signer.Sign, hpage]

theorem sign_sticky_failure_witness :
    (initBody "p" failEnv).initErr = some (InitErr.runFailed ⟨"boom"⟩) ∧
    zeroSigner.page = false ∧
    (NewSigner "p" failEnv = Except.error (InitErr.runFailed ⟨"boom"⟩) ∧
      zeroSigner.Sign sampleParams abcPage =
        (Except.error SignErr.pageNotInit, [])) :=
  ⟨rfl, rfl,
    sign_sticky_failure "p" failEnv (InitErr.runFailed ⟨"boom"⟩)
      zeroSigner sampleParams abcPage rfl rfl⟩

/-- C9: the session-identity tokens `a1` and `web_session` are not used
inside the signing call — two requests agreeing on `uri` and `data`
produce the identical outcome and identical page interactions. -/
theorem sign_ignores_session_tokens (s : Signer) (p1 p2 : SignParams)
    (pb : PageBehavior) (huri : p1.uri = p2.uri) (hdata : p1.data = p2.data) :
    s.Sign p1 pb = s.Sign p2 pb := by
  rcases p1 with ⟨u1, d1, a1, w1⟩
  rcases p2 with ⟨u2, d2, a2, w2⟩
  replace huri : u1 = u2 := huri
  replace hdata : d1 = d2 := hdata
  subst huri
  subst hdata
  rfl

theorem sign_ignores_session_tokens_witness :
    sampleParams.uri = sampleParamsTok.uri ∧
    sampleParams.data = sampleParamsTok.data ∧
    fullSigner.Sign sampleParams abcPage = fullSigner.Sign sampleParamsTok abcPage :=
  ⟨rfl, rfl,
    sign_ignores_session_tokens fullSigner sampleParams sampleParamsTok abcPage rfl rfl⟩

/-- C6: result extraction — when the in-page function returns the mapping
with `X-s = "abc"` and `X-t = "123"`, `Sign` succeeds with exactly those
two tokens; when it returns a value that is not a key/value object at
all, `Sign` fails with the result-shape error. -/
theorem sign_result_extraction (s : Signer) (params : SignParams)
    (pb1 pb2 : PageBehavior) (v : Json)
    (hpage : s.page = true)
    (hp1 : pb1.probeResult = Except.ok (Json.bool true))
    (hw1 : pb1.webmsxyw params.uri params.data =
      Except.ok (Json.obj [("X-s", Json.str "abc"), ("X-t", Json.str "123")]))
    (hp2 : pb2.probeResult = Except.ok (Json.bool true))
    (hw2 : pb2.webmsxyw params.uri params.data = Except.ok v)
    (hv : isObjB v = false) :
    (s.Sign params pb1).1 = Except.ok ⟨"abc", "123"⟩ ∧
    (s.Sign params pb2).1 = Except.error SignErr.shapeError := by
  constructor
  · simp +decide [Signer.Sign, hpage, hp1, evalSignExpr, Json.parse_render, hw1,
      getStrField, lookupKV]
  · cases v <;>
      simp [Signer.Sign, hpage, hp2, evalSignExpr, Json.parse_render, hw2, isObjB] at hv ⊢

theorem sign_result_extraction_witness :
    fullSigner.page = true ∧
    isObjB (Json.str "nope") = false ∧
    ((fullSigner.Sign sampleParams abcPage).1 = Except.ok ⟨"abc", "123"⟩ ∧
      (fullSigner.Sign sampleParams nonObjPage).1 = Except.error SignErr.shapeError) :=
  ⟨rfl, rfl,
    sign_result_extraction fullSigner sampleParams abcPage nonObjPage
      (Json.str "nope") rfl rfl rfl rfl rfl rfl⟩

/-- C3 counterexample: the in-page function returns an empty object — a
mapping with both `X-s` and `X-t` missing, not well-shaped in the spec's
sense —
yet `Sign` succeeds with two empty tokens instead of failing with a
result-shape error (the source ignores the `, ok` of the two field
assertions). -/
theorem sign_shape_counterexample :
    specWellShaped (Json.obj []) = false ∧
    (fullSigner.Sign sampleParams emptyObjPage).1 =
      Except.ok ⟨"", ""⟩ :=
  ⟨rfl, rfl⟩

/-- C3 amended: `Sign` fails with the result-shape error exactly when the
returned value is not a key/value mapping at all; when it is a mapping,
`Sign` succeeds, extracting `X-s` and `X-t` as their string values when
present and of string type and as `""` otherwise. -/
theorem sign_result_shape_amended (s : Signer) (params : SignParams)
    (pb : PageBehavior) (v : Json) (hpage : s.page = true)
    (hprobe : pb.probeResult = Except.ok (Json.bool true))
    (heval : pb.webmsxyw params.uri params.data = Except.ok v) :
    (s.Sign params pb).1 =
      match v with
      | Json.obj m => Except.ok ⟨getStrField m "X-s", getStrField m "X-t"⟩
      | _ => Except.error SignErr.shapeError := by
  cases v <;>
    simp [Signer.Sign, hpage, hprobe, evalSignExpr, Json.parse_render, heval]

theorem sign_result_shape_amended_witness :
    fullSigner.page = true ∧
    (fullSigner.Sign sampleParams emptyObjPage).1 =
      Except.ok ⟨getStrField [] "X-s", getStrField [] "X-t"⟩ :=
  ⟨rfl,
    sign_result_shape_amended fullSigner sampleParams emptyObjPage
      (Json.obj []) rfl rfl rfl⟩

/-- C8: gateway response mapping for `POST /sign` — a body that fails to
bind yields 400 with an `error` string; a bound request whose `Sign`
fails yields 500 with an `error` string; a bound request whose `Sign`
succeeds yields 200 carrying the two tokens under `x-s` and `x-t`. -/
theorem gateway_response_mapping (s1 s2 : Signer) (pb1 pb2 : PageBehavior)
    (emsg : String) (req1 req2 : SignParams) (e : SignErr) (res : SignResult)
    (herr : (s1.Sign req1 pb1).1 = Except.error e)
    (hok : (s2.Sign req2 pb2).1 = Except.ok res) :
    signHandler (Except.error emsg) s1 pb1 =
      ⟨400, Json.obj [("error", Json.str ("参数解析失败: " ++ emsg))]⟩ ∧
    signHandler (Except.ok req1) s1 pb1 =
      ⟨500, Json.obj [("error", Json.str ("签名失败: " ++ e.message))]⟩ ∧
    signHandler (Except.ok req2) s2 pb2 =
      ⟨200, Json.obj [("x-s", Json.str res.xs), ("x-t", Json.str res.xt)]⟩ := by
  refine ⟨rfl, ?_, ?_⟩
  · simp [signHandler, herr]
  · simp [signHandler, hok]

theorem gateway_response_mapping_witness :
    (zeroSigner.Sign sampleParams abcPage).1 =
      Except.error SignErr.pageNotInit ∧
    (fullSigner.Sign sampleParams abcPage).1 =
      Except.ok ⟨"abc", "123"⟩ ∧
    (signHandler (Except.error "EOF") zeroSigner abcPage =
        ⟨400, Json.obj [("error", Json.str ("参数解析失败: " ++ "EOF"))]⟩ ∧
      signHandler (Except.ok sampleParams) zeroSigner abcPage =
        ⟨500, Json.obj [("error", Json.str ("签名失败: " ++ SignErr.pageNotInit.message))]⟩ ∧
      signHandler (Except.ok sampleParams) fullSigner abcPage =
        ⟨200, Json.obj [("x-s", Json.str "abc"), ("x-t", Json.str "123")]⟩) :=
  ⟨rfl, rfl,
    gateway_response_mapping zeroSigner fullSigner abcPage abcPage "EOF"
      sampleParams sampleParams SignErr.pageNotInit ⟨"abc", "123"⟩ rfl rfl⟩

/-- C7: `Close` on a fully live session attempts all four release steps —
page, context, browser, runtime, in that order, regardless of which steps
fail — and returns the first error encountered (`none` when every step
succeeds). -/
theorem close_order_first_error (s : Signer) (cb : CloseBehavior)
    (hpw : s.pw = true) (hb : s.browser = true) (hc : s.context = true)
    (hp : s.page = true) :
    s.Close cb =
      (specFirstCloseErr cb,
       [CloseStage.page, CloseStage.context, CloseStage.browser, CloseStage.runtime]) := by
  rcases cb with ⟨p, c, b, w⟩
  cases p <;> cases c <;> cases b <;> cases w <;>
    simp [Signer.Close, closeStep, specFirstCloseErr, hpw, hb, hc, hp]

theorem close_order_first_error_witness :
    fullSigner.pw = true ∧
    fullSigner.Close ⟨some ⟨"e1"⟩, none, some ⟨"e3"⟩, none⟩ =
      (specFirstCloseErr ⟨some ⟨"e1"⟩, none, some ⟨"e3"⟩, none⟩,
       [CloseStage.page, CloseStage.context, CloseStage.browser, CloseStage.runtime]) :=
  ⟨rfl,
    close_order_first_error fullSigner ⟨some ⟨"e1"⟩, none, some ⟨"e3"⟩, none⟩
      rfl rfl rfl rfl⟩

/-- C10: `Close` is total on partially initialized sessions — it attempts
exactly the non-nil handles (in page, context, browser, runtime order)
and skips the nil ones, and on a session where every handle is nil it
returns `none` having attempted nothing. -/
theorem close_partial_handles (s : Signer) (cb : CloseBehavior) :
    (s.Close cb).2 = specCloseOrder s ∧
    (s.page = false → s.context = false → s.browser = false → s.pw = false →
      s.Close cb = (none, [])) := by
  rcases s with ⟨pw, b, c, p, sj, ie⟩
  rcases cb with ⟨cp, cc, cbr, cw⟩
  cases p <;> cases c <;> cases b <;> cases pw <;>
    cases cp <;> cases cc <;> cases cbr <;> cases cw <;>
      simp [Signer.Close, closeStep, specCloseOrder]

theorem close_partial_handles_witness :
    ((Signer.Close ⟨true, false, true, false, "", none⟩
        ⟨some ⟨"e"⟩, none, none, none⟩).2 =
      specCloseOrder ⟨true, false, true, false, "", none⟩) ∧
    zeroSigner.Close ⟨some ⟨"e"⟩, none, none, none⟩ = (none, []) :=
  ⟨(close_partial_handles ⟨true, false, true, false, "", none⟩
      ⟨some ⟨"e"⟩, none, none, none⟩).1,
    (close_partial_handles zeroSigner ⟨some ⟨"e"⟩, none, none, none⟩).2
      rfl rfl rfl rfl⟩

/-- C1 is violated by the code: `Sign` acquires no lock (the `Signer`
struct has no mutex and the method performs no synchronization), so the
engine admits every interleaving of two concurrent calls' page
interactions.  Exhibited: an admissible schedule of two identical calls
in which the two probe-evaluate sequences overlap, i.e. the schedule is
not serialized. -/
theorem sign_no_mutual_exclusion :
    ∃ sched : List (Nat × PageOp),
      Interleaving (tagOps 1 (fullSigner.Sign sampleParams abcPage).2)
        (tagOps 2 (fullSigner.Sign sampleParams abcPage).2) sched ∧
      ¬ serializedTwo (tagOps 1 (fullSigner.Sign sampleParams abcPage).2)
        (tagOps 2 (fullSigner.Sign sampleParams abcPage).2) sched := by
  have h1 : tagOps 1 (fullSigner.Sign sampleParams abcPage).2 =
      [(1, PageOp.probe), (1, PageOp.evalSign "/api/foo" "null")] := rfl
  have h2 : tagOps 2 (fullSigner.Sign sampleParams abcPage).2 =
      [(2, PageOp.probe), (2, PageOp.evalSign "/api/foo" "null")] := rfl
  refine ⟨[(1, PageOp.probe), (2, PageOp.probe),
           (1, PageOp.evalSign "/api/foo" "null"),
           (2, PageOp.evalSign "/api/foo" "null")], ?_, ?_⟩
  · rw [h1, h2]
    exact Interleaving.left (Interleaving.right
      (Interleaving.left (Interleaving.right Interleaving.nil)))
  · rw [h1, h2]
    unfold serializedTwo
    decide

/-- C2 is violated by the code: each `NewSigner` call declares
`var s Signer`, so the `sync.Once` guarding the launch sequence is a
fresh, unfired guard on every call and the launch body runs once per
call — two calls in one process execute two launch sequences, where the
claim demands exactly one. -/
theorem newSigner_two_calls_two_launches :
    ((NewSignerW "stealth.min.js" okEnv
        (NewSignerW "stealth.min.js" okEnv ⟨0⟩).2).2).launches = 2 := rfl
